import Mathlib

/-!
Shallow embedding of `src/CIK.py` (class `SecEdgar`): a client for the SEC
EDGAR data set.  The class builds three lookup dictionaries from a company
reference feed and offers per-CIK filing lookups (`annual_filing`,
`quarterly_filing`).  HTTP transport is external: each embedded operation
takes the outcome of its HTTP call as an explicit argument.
-/

namespace CIK

/-- Python `str.lower()` on the ASCII strings this feed carries. -/
def lower (s : String) : String := String.mk (s.data.map Char.toLower)

/-- Python `s.startswith(p)`. -/
def pyStartsWith (s p : String) : Bool := p.data.isPrefixOf s.data

/-- Helper for `splitChar`: split a character list at every occurrence of
`sep`, keeping empty pieces, as Python `str.split` with an explicit
separator does. -/
def splitCharAux (sep : Char) : List Char → List (List Char)
  | [] => [[]]
  | x :: xs =>
    let rest := splitCharAux sep xs
    if x = sep then [] :: rest
    else match rest with
      | [] => [[x]]
      | y :: ys => (x :: y) :: ys

/-- Python `s.split(sep)` for a one-character separator. -/
def splitChar (sep : Char) (s : String) : List String :=
  (splitCharAux sep s.data).map String.mk

/-- Python `int(s)` on an all-digit string, `none` where `int` raises. -/
def pyIntOfDigits : List Char → Option Int
  | [] => none
  | cs => if cs.all Char.isDigit then
      some (cs.foldl (fun n c => n * 10 + ((c.toNat : Int) - 48)) 0)
    else none

/-- Python `int(s)` on the plain decimal strings this code feeds it. -/
def pyInt (s : String) : Option Int :=
  match s.data with
  | '-' :: cs => (pyIntOfDigits cs).map (fun n => -n)
  | cs => pyIntOfDigits cs

/-- Python `str.zfill(w)` for a non-negative numeral string: pad with `'0'`
on the left up to width `w`. -/
def zfill (s : String) (w : Nat) : String :=
  String.mk (List.replicate (w - s.length) '0') ++ s

/-- `_format_cik`: `str(cik).zfill(10)` (CIK.py line 57). -/
def format_cik (cik : Nat) : String := zfill (toString cik) 10

/-- Python `s.replace('-', '')`: drop every hyphen. -/
def stripDashes (s : String) : String := String.mk (s.data.filter (fun c => c ≠ '-'))

/-- One value of the company reference feed's JSON object.  `item.get(k)`
returns `None` when the key is missing, hence the `Option` fields. -/
structure FeedEntry where
  cik_str : Option Nat
  ticker : Option String
  title : Option String
deriving DecidableEq, Repr

/-- The tuple `(cik, ticker, name)` stored in `cik_data` (CIK.py line 27). -/
structure CompanyRecord where
  cik : Option Nat
  ticker : String
  name : String
deriving DecidableEq, Repr

/-- Pointwise update of a finite map modelled as a function: Python dict
assignment `d[k] = v` (overwrites any previous binding). -/
def update {K V : Type} [DecidableEq K] (f : K → Option V) (k : K) (v : V) :
    K → Option V :=
  fun x => if x = k then some v else f x

/-- The three dictionaries built by `SecEdgar.__init__` (CIK.py lines 13-15). -/
structure SecEdgar where
  company_name : String → Option (Option Nat)
  stock_ticker : String → Option (Option Nat)
  cik_data : Option Nat → Option CompanyRecord

def emptyIndex : SecEdgar :=
  { company_name := fun _ => none, stock_ticker := fun _ => none,
    cik_data := fun _ => none }

/-- One iteration of the construction loop (CIK.py lines 21-29): skip the
entry when `title` or `ticker` is missing or empty (`if not name or not
ticker: continue`), otherwise insert into all three dictionaries. -/
def addEntry (st : SecEdgar) (item : FeedEntry) : SecEdgar :=
  match item.title, item.ticker with
  | some name, some ticker =>
      if name = "" ∨ ticker = "" then st
      else
        { cik_data := update st.cik_data item.cik_str
            ⟨item.cik_str, ticker, name⟩,
          company_name := update st.company_name (lower name) item.cik_str,
          stock_ticker := update st.stock_ticker (lower ticker) item.cik_str }
  | _, _ => st

/-- The construction loop over `self.filejson.values()` in encounter
order. -/
def buildIndex (feed : List FeedEntry) : SecEdgar :=
  feed.foldl addEntry emptyIndex

/-- Outcome of the HTTP GET in `__init__` (CIK.py line 18): either the
transport raised, or a response arrived with a status code and a body that
`r.json()` can (`some feed`, the object's values in encounter order) or
cannot (`none`) parse. -/
structure HttpResponse where
  status : Nat
  jsonBody : Option (List FeedEntry)

/-- How `SecEdgar.__init__` can fail: the exception from `requests.get`
propagates, or the exception from `r.json()` propagates.  No other failure
path exists in the constructor. -/
inductive InitError where
  | transport
  | jsonDecode
deriving DecidableEq, Repr

/-- `SecEdgar.__init__` (CIK.py lines 11-29).  `requests.get` failure and an
unparseable body each raise out of the constructor; otherwise the index is
built from the parsed body.  The status code is never consulted (no
`raise_for_status` here). -/
def secEdgarInit (resp : Except Unit HttpResponse) : Except InitError SecEdgar :=
  match resp with
  | .error () => .error .transport
  | .ok r =>
      match r.jsonBody with
      | none => .error .jsonDecode
      | some feed => .ok (buildIndex feed)

/-- The dictionary appended to `results` for one matching filing
(CIK.py lines 97-103 and 142-148): keys `Filing Date`, `Accession Number`,
`Primary Document`, `Description`, `Document URL`. -/
structure FilingRef where
  filingDate : String
  accessionNumber : String
  primaryDocument : String
  description : String
  documentUrl : String
deriving DecidableEq, Repr

/-- A value a `SecEdgar` lookup method can return: a plain string, the list
of filing dictionaries, or a company tuple. -/
inductive PyVal where
  | str (s : String)
  | filings (rs : List FilingRef)
  | record (r : CompanyRecord)
deriving DecidableEq, Repr

/-- `name_to_cik` (CIK.py lines 35-40): look up the lowercased name, then the
resulting CIK in `cik_data`; a `KeyError` from either lookup is caught and
turned into the string `Company not found.`. -/
def name_to_cik (se : SecEdgar) (name : String) : PyVal :=
  match se.company_name (lower name) with
  | none => .str "Company not found."
  | some cik =>
      match se.cik_data cik with
      | none => .str "Company not found."
      | some r => .record r

/-- `ticker_to_cik` (CIK.py lines 46-51): symmetric via `stock_ticker`. -/
def ticker_to_cik (se : SecEdgar) (ticker : String) : PyVal :=
  match se.stock_ticker (lower ticker) with
  | none => .str "Ticker not found."
  | some cik =>
      match se.cik_data cik with
      | none => .str "Ticker not found."
      | some r => .record r

/-- The `filings['recent']` object as the filing methods read it: four
parallel arrays indexed together (CIK.py lines 85-88, 125-128), plus the
`form` array the submissions endpoint also carries (spec sections 3 and 6)
which the code never reads.  The arrays share one length (feed invariant);
the embedding reads them with `getD`, which only the equal-length case
exercises. -/
structure Filings where
  accessionNumber : List String
  primaryDocument : List String
  primaryDocDescription : List String
  filingDate : List String
  form : List String
deriving DecidableEq, Repr

/-- The message of the `RuntimeError` raised by `_get_filings`
(CIK.py line 74), as re-rendered by `f'Error {e}'` at the call sites. -/
def fetchErrorMsg (cik : Nat) : String :=
  "Error Failed to fetch filings for CIK " ++ toString cik ++ "."

/-- The document URL built for a match (CIK.py lines 93-95 and 138-140):
archive host, `_format_cik(cik)` (zero-padded), accession number with
hyphens stripped, primary document. -/
def documentUrl (cik : Nat) (accession doc : String) : String :=
  "https://www.sec.gov/Archives/edgar/data/" ++ format_cik cik ++ "/" ++
    stripDashes accession ++ "/" ++ doc

/-- The dictionary built for the match at index `i` (CIK.py lines 93-103,
138-148; both methods build the same shape). -/
def mkRef (cik : Nat) (f : Filings) (i : Nat) : FilingRef :=
  { filingDate := f.filingDate.getD i "",
    accessionNumber := f.accessionNumber.getD i "",
    primaryDocument := f.primaryDocument.getD i "",
    description := f.primaryDocDescription.getD i "",
    documentUrl := documentUrl cik (f.accessionNumber.getD i "")
      (f.primaryDocument.getD i "") }

/-- The match test of the `annual_filing` loop (CIK.py line 92):
`descriptions[i] == '10-K' and filing_date[i].startswith(str(year))`. -/
def annualMatch (f : Filings) (year : Int) (i : Nat) : Prop :=
  f.primaryDocDescription.getD i "" = "10-K" ∧
    pyStartsWith (f.filingDate.getD i "") (toString year) = true

instance (f : Filings) (year : Int) (i : Nat) : Decidable (annualMatch f year i) :=
  inferInstanceAs (Decidable (_ ∧ _))

/-- The `results` list accumulated by `annual_filing` (CIK.py lines 90-103):
one dictionary per matching index, in scan order. -/
def annualResults (cik : Nat) (year : Int) (f : Filings) : List FilingRef :=
  (List.range f.accessionNumber.length).filterMap fun i =>
    if annualMatch f year i then some (mkRef cik f i) else none

/-- `annual_filing` (CIK.py lines 79-104).  A `RuntimeError` from
`_get_filings` is caught and returned as the string `f'Error {e}'`;
otherwise the loop runs and `results if results else 'No 10-K filing
found for the specified year.'` is returned. -/
def annual_filing (cik : Nat) (year : Int) (fetch : Except Unit Filings) : PyVal :=
  match fetch with
  | .error () => .str (fetchErrorMsg cik)
  | .ok f =>
      let results := annualResults cik year f
      if results.isEmpty then .str "No 10-K filing found for the specified year."
      else .filings results

/-- The `quarter_months` dictionary (CIK.py lines 110-115); `none` models a
key that is absent (`quarter not in quarter_months`). -/
def quarter_months (q : Int) : Option (List Int) :=
  if q = 1 then some [12, 1, 2]
  else if q = 2 then some [3, 4, 5]
  else if q = 3 then some [6, 7, 8]
  else if q = 4 then some [9, 10, 11]
  else none

/-- `int(filing_date.split('-')[1])` (CIK.py line 136).  Where Python would
raise (no second dash-separated field, or a non-numeric one) the model
yields `0`, a month that belongs to no quarter's list. -/
def filingMonth (date : String) : Int :=
  (pyInt ((splitChar '-' date).getD 1 "")).getD 0

/-- The match test of the `quarterly_filing` loop (CIK.py lines 135-137):
form description equals `10-Q`, the date starts with the year, and the
parsed month lies in the quarter's month list. -/
def quarterlyMatch (f : Filings) (year : Int) (months : List Int) (i : Nat) : Prop :=
  f.primaryDocDescription.getD i "" = "10-Q" ∧
    pyStartsWith (f.filingDate.getD i "") (toString year) = true ∧
    filingMonth (f.filingDate.getD i "") ∈ months

instance (f : Filings) (year : Int) (months : List Int) (i : Nat) :
    Decidable (quarterlyMatch f year months i) :=
  inferInstanceAs (Decidable (_ ∧ _))

/-- The `results` list accumulated by `quarterly_filing`
(CIK.py lines 130-148). -/
def quarterlyResults (cik : Nat) (year : Int) (months : List Int) (f : Filings) :
    List FilingRef :=
  (List.range f.accessionNumber.length).filterMap fun i =>
    if quarterlyMatch f year months i then some (mkRef cik f i) else none

/-- The exception `quarterly_filing` can raise (CIK.py line 118). -/
inductive PyErr where
  | valueError (msg : String)
deriving DecidableEq, Repr

/-- `quarterly_filing` (CIK.py lines 109-149).  A quarter outside the
`quarter_months` keys raises `ValueError` before any fetch; afterwards the
shape mirrors `annual_filing`. -/
def quarterly_filing (cik : Nat) (year quarter : Int)
    (fetch : Except Unit Filings) : Except PyErr PyVal :=
  match quarter_months quarter with
  | none => .error (.valueError "Quarter must be between 1 and 4.")
  | some months =>
      match fetch with
      | .error () => .ok (.str (fetchErrorMsg cik))
      | .ok f =>
          let results := quarterlyResults cik year months f
          .ok (if results.isEmpty then
            .str "No 10-Q filing found for the specified year and quarter."
          else .filings results)

/-- The shape of a returned value, as a Python caller can observe it without
reading any message text: which of the three kinds of value came back. -/
def PyVal.isStr : PyVal → Bool
  | .str _ => true
  | _ => false

/-- Whether the constructor completed without raising. -/
def initSucceeds : Except InitError SecEdgar → Bool
  | .ok _ => true
  | .error _ => false

/-- The lowercased name and ticker keys an entry contributes, or `none` when
the construction loop skips it. -/
def keptNT (e : FeedEntry) : Option (String × String) :=
  match e.title, e.ticker with
  | some name, some ticker =>
      if name = "" ∨ ticker = "" then none
      else some (lower name, lower ticker)
  | _, _ => none

/-- Every record reachable from `cik_data` carries its own key as `cik` and
is pointed back to by its lowercased name and ticker keys. -/
def RoundTrips (st : SecEdgar) : Prop :=
  ∀ c r, st.cik_data c = some r →
    r.cik = c ∧ st.company_name (lower r.name) = some c ∧
      st.stock_ticker (lower r.ticker) = some c

/-- None of the name/ticker keys the remaining entries will insert is bound
yet. -/
def FreshKeys (st : SecEdgar) (rest : List FeedEntry) : Prop :=
  ∀ k ∈ rest.filterMap keptNT,
    st.company_name k.1 = none ∧ st.stock_ticker k.2 = none

/-- Two 10-K records for the same year at different scan positions. -/
def twoKFilings : Filings :=
  { accessionNumber := ["0001-23-000001", "0001-23-000002"],
    primaryDocument := ["a.htm", "b.htm"],
    primaryDocDescription := ["10-K", "10-K"],
    filingDate := ["2024-01-15", "2024-11-20"],
    form := ["10-K", "10-K"] }

/-- A record whose `form` field is a 10-K but whose description is not the
exact string `10-K`. -/
def formOnlyFilings : Filings :=
  { accessionNumber := ["0001-23-000001"],
    primaryDocument := ["a.htm"],
    primaryDocDescription := ["Annual report"],
    filingDate := ["2024-01-15"],
    form := ["10-K"] }

/-- One matching 10-K record for CIK 320193. -/
def oneKFilings : Filings :=
  { accessionNumber := ["0000320193-24-000123"],
    primaryDocument := ["aapl-20240928.htm"],
    primaryDocDescription := ["10-K"],
    filingDate := ["2024-11-01"],
    form := ["10-K"] }

/-- A feed in which two kept entries share the (lowercased) company name. -/
def dupNameFeed : List FeedEntry :=
  [⟨some 1, some "A", some "X"⟩, ⟨some 2, some "B", some "X"⟩]

lemma isPrefixOf_append_left (l₁ l₂ : List Char) :
    l₁.isPrefixOf (l₁ ++ l₂) = true := by
  induction l₁ with
  | nil => simp [List.isPrefixOf]
  | cons a as ih => simp [List.isPrefixOf, ih]

lemma isPrefixOf_of_isPrefixOf_append (l₁ l₂ l₃ : List Char)
    (h : l₁.isPrefixOf l₂ = true) : l₁.isPrefixOf (l₂ ++ l₃) = true := by
  induction l₁ generalizing l₂ with
  | nil => simp [List.isPrefixOf]
  | cons a as ih =>
      cases l₂ with
      | nil => exact absurd h (by simp [List.isPrefixOf])
      | cons b bs =>
          simp only [List.isPrefixOf, List.cons_append, Bool.and_eq_true] at h ⊢
          exact ⟨h.1, ih bs h.2⟩

lemma pyStartsWith_append_left (s t : String) :
    pyStartsWith (s ++ t) s = true := by
  have : (s ++ t).data = s.data ++ t.data := rfl
  simp [pyStartsWith, this, isPrefixOf_append_left]

lemma pyStartsWith_append_of (p s t : String) (h : pyStartsWith s p = true) :
    pyStartsWith (s ++ t) p = true := by
  have : (s ++ t).data = s.data ++ t.data := rfl
  simp only [pyStartsWith, this]
  exact isPrefixOf_of_isPrefixOf_append _ _ _ h

lemma addEntry_of_keptNT_none (st : SecEdgar) (e : FeedEntry)
    (h : keptNT e = none) : addEntry st e = st := by
  unfold keptNT at h
  unfold addEntry
  cases ht : e.title with
  | none => cases e.ticker <;> rfl
  | some name =>
      cases htk : e.ticker with
      | none => rfl
      | some ticker =>
          rw [ht, htk] at h
          simp only at h
          split at h
          · simp [*]
          · simp at h

lemma keptNT_some_elim (e : FeedEntry) (ln lt : String)
    (h : keptNT e = some (ln, lt)) :
    ∃ name ticker, e.title = some name ∧ e.ticker = some ticker ∧
      ¬(name = "" ∨ ticker = "") ∧ ln = lower name ∧ lt = lower ticker := by
  unfold keptNT at h
  cases ht : e.title with
  | none => rw [ht] at h; cases e.ticker <;> simp at h
  | some name =>
      cases htk : e.ticker with
      | none => rw [ht, htk] at h; simp at h
      | some ticker =>
          rw [ht, htk] at h
          simp only at h
          split at h
          · simp at h
          · refine ⟨name, ticker, rfl, rfl, by assumption, ?_, ?_⟩ <;>
              · cases h; rfl

lemma addEntry_of_keptNT_some (st : SecEdgar) (e : FeedEntry)
    (name ticker : String) (ht : e.title = some name)
    (htk : e.ticker = some ticker) (hne : ¬(name = "" ∨ ticker = "")) :
    addEntry st e =
      { cik_data := update st.cik_data e.cik_str ⟨e.cik_str, ticker, name⟩,
        company_name := update st.company_name (lower name) e.cik_str,
        stock_ticker := update st.stock_ticker (lower ticker) e.cik_str } := by
  unfold addEntry
  rw [ht, htk]
  simp [hne]

lemma foldl_addEntry_inv (P : SecEdgar → Prop)
    (hstep : ∀ st e, P st → P (addEntry st e)) :
    ∀ (feed : List FeedEntry) (st : SecEdgar), P st → P (feed.foldl addEntry st)
  | [], _, h => h
  | e :: rest, st, h =>
      foldl_addEntry_inv P hstep rest (addEntry st e) (hstep st e h)

lemma nonempty_fields_step (st : SecEdgar) (e : FeedEntry)
    (h : ∀ c r, st.cik_data c = some r → r.ticker ≠ "" ∧ r.name ≠ "") :
    ∀ c r, (addEntry st e).cik_data c = some r →
      r.ticker ≠ "" ∧ r.name ≠ "" := by
  intro c r hr
  unfold addEntry at hr
  cases ht : e.title with
  | none =>
      rw [ht] at hr
      cases e.ticker <;> exact h c r hr
  | some name =>
      cases htk : e.ticker with
      | none => rw [ht, htk] at hr; exact h c r hr
      | some ticker =>
          rw [ht, htk] at hr
          simp only at hr
          split at hr
          · exact h c r hr
          · rename_i hne
            push_neg at hne
            simp only [update] at hr
            split at hr
            · injection hr with hv
              subst hv
              exact ⟨hne.2, hne.1⟩
            · exact h c r hr

lemma closure_step (st : SecEdgar) (e : FeedEntry)
    (h : (∀ n c, st.company_name n = some c → ∃ r, st.cik_data c = some r) ∧
      (∀ t c, st.stock_ticker t = some c → ∃ r, st.cik_data c = some r)) :
    (∀ n c, (addEntry st e).company_name n = some c →
      ∃ r, (addEntry st e).cik_data c = some r) ∧
    (∀ t c, (addEntry st e).stock_ticker t = some c →
      ∃ r, (addEntry st e).cik_data c = some r) := by
  unfold addEntry
  cases ht : e.title with
  | none => cases e.ticker <;> exact h
  | some name =>
      cases htk : e.ticker with
      | none => exact h
      | some ticker =>
          simp only
          split
          · exact h
          · constructor
            · intro n c hn
              simp only [update] at hn ⊢
              split at hn
              · cases hn
                exact ⟨⟨e.cik_str, ticker, name⟩, by simp⟩
              · obtain ⟨r, hr⟩ := h.1 n c hn
                by_cases hceq : c = e.cik_str
                · exact ⟨⟨e.cik_str, ticker, name⟩, by simp [hceq]⟩
                · exact ⟨r, by simp [hceq, hr]⟩
            · intro t c hn
              simp only [update] at hn ⊢
              split at hn
              · cases hn
                exact ⟨⟨e.cik_str, ticker, name⟩, by simp⟩
              · obtain ⟨r, hr⟩ := h.2 t c hn
                by_cases hceq : c = e.cik_str
                · exact ⟨⟨e.cik_str, ticker, name⟩, by simp [hceq]⟩
                · exact ⟨r, by simp [hceq, hr]⟩

/-- C7: every feed entry with an empty or missing `title` or `ticker` is
skipped by the construction loop, so (equivalently, as the spec puts it)
every record reachable from `cik_data` has a non-empty ticker and name. -/
theorem records_have_nonempty_fields (feed : List FeedEntry) (c : Option Nat)
    (r : CompanyRecord) (h : (buildIndex feed).cik_data c = some r) :
    r.ticker ≠ "" ∧ r.name ≠ "" := by
  exact foldl_addEntry_inv
    (fun st => ∀ c r, st.cik_data c = some r → r.ticker ≠ "" ∧ r.name ≠ "")
    nonempty_fields_step feed emptyIndex (fun _ _ hr => by cases hr) c r h

/-- Witness for C7 on a concrete feed: the entry with an empty ticker is
dropped, the kept record has non-empty fields. -/
theorem records_have_nonempty_fields_witness :
    ("B" : String) ≠ "" ∧ ("Y" : String) ≠ "" :=
  records_have_nonempty_fields
    [⟨some 1, some "", some "X"⟩, ⟨some 2, some "B", some "Y"⟩]
    (some 2) ⟨some 2, "B", "Y"⟩ (by decide)

/-- C10: every CIK stored as a value of `company_name` or `stock_ticker` is
a key of `cik_data`, so in `name_to_cik` and `ticker_to_cik` the second
dictionary access succeeds whenever the first does and a company record is
returned. -/
theorem lookup_closure (feed : List FeedEntry) :
    (∀ n c, (buildIndex feed).company_name n = some c →
      ∃ r, (buildIndex feed).cik_data c = some r) ∧
    (∀ t c, (buildIndex feed).stock_ticker t = some c →
      ∃ r, (buildIndex feed).cik_data c = some r) ∧
    (∀ name c, (buildIndex feed).company_name (lower name) = some c →
      ∃ r, name_to_cik (buildIndex feed) name = .record r) ∧
    (∀ ticker c, (buildIndex feed).stock_ticker (lower ticker) = some c →
      ∃ r, ticker_to_cik (buildIndex feed) ticker = .record r) := by
  have hbase : (∀ n c, emptyIndex.company_name n = some c →
      ∃ r, emptyIndex.cik_data c = some r) ∧
      (∀ t c, emptyIndex.stock_ticker t = some c →
        ∃ r, emptyIndex.cik_data c = some r) :=
    ⟨fun _ _ hr => by simp [emptyIndex] at hr,
     fun _ _ hr => by simp [emptyIndex] at hr⟩
  have hmain := foldl_addEntry_inv
    (fun st => (∀ n c, st.company_name n = some c →
        ∃ r, st.cik_data c = some r) ∧
      (∀ t c, st.stock_ticker t = some c → ∃ r, st.cik_data c = some r))
    closure_step feed emptyIndex hbase
  have h1 : ∀ n c, (buildIndex feed).company_name n = some c →
      ∃ r, (buildIndex feed).cik_data c = some r := hmain.1
  have h2 : ∀ t c, (buildIndex feed).stock_ticker t = some c →
      ∃ r, (buildIndex feed).cik_data c = some r := hmain.2
  refine ⟨h1, h2, fun name c hc => ?_, fun ticker c hc => ?_⟩
  · obtain ⟨r, hr⟩ := h1 _ _ hc
    refine ⟨r, ?_⟩
    simp only [name_to_cik, hc]
    simp [hr]
  · obtain ⟨r, hr⟩ := h2 _ _ hc
    refine ⟨r, ?_⟩
    simp only [ticker_to_cik, hc]
    simp [hr]

/-- Witness for C10 on a concrete feed: the name lookup hit resolves to a
record. -/
theorem lookup_closure_witness :
    ∃ r, name_to_cik (buildIndex [⟨some 1, some "A", some "X"⟩]) "X" =
      .record r :=
  (lookup_closure [⟨some 1, some "A", some "X"⟩]).2.2.1 "X" (some 1) (by decide)

/-- C4: a quarter outside the keys of `quarter_months` makes
`quarterly_filing` raise `ValueError` (the distinct invalid-argument
outcome), before and regardless of any fetch outcome and of the other
arguments. -/
theorem quarterly_filing_invalid_quarter (cik : Nat) (year quarter : Int)
    (fetch : Except Unit Filings) (h : quarter ∉ ([1, 2, 3, 4] : List Int)) :
    quarterly_filing cik year quarter fetch =
      .error (.valueError "Quarter must be between 1 and 4.") := by
  have h1 : quarter ≠ 1 := fun e => h (by simp [e])
  have h2 : quarter ≠ 2 := fun e => h (by simp [e])
  have h3 : quarter ≠ 3 := fun e => h (by simp [e])
  have h4 : quarter ≠ 4 := fun e => h (by simp [e])
  simp [quarterly_filing, quarter_months, h1, h2, h3, h4]

/-- Witness for C4: quarter 5 raises even when the fetch would have
succeeded. -/
theorem quarterly_filing_invalid_quarter_witness :
    quarterly_filing 320193 2024 5
        (.ok ⟨["0001-23-000001"], ["a.htm"], ["10-Q"], ["2024-05-03"], ["10-Q"]⟩) =
      .error (.valueError "Quarter must be between 1 and 4.") :=
  quarterly_filing_invalid_quarter 320193 2024 5
    (.ok ⟨["0001-23-000001"], ["a.htm"], ["10-Q"], ["2024-05-03"], ["10-Q"]⟩)
    (by decide)

/-- C6 counterexample: a non-2xx response (status 404) whose body still
parses as JSON does not fail construction — the status code is never
examined, contradicting "fails for every non-2xx status". -/
theorem init_succeeds_on_404_cex :
    initSucceeds (secEdgarInit
        (.ok ⟨404, some [⟨some 320193, some "AAPL", some "Apple Inc."⟩]⟩)) =
      true ∧ (404 < 200 ∨ 300 ≤ 404) :=
  ⟨rfl, by decide⟩

lemma filterMap_range_ordered {α : Type} (g : Nat → Option α) (n i j : Nat)
    (hij : i < j) (hjn : j < n) (a b : α) (ha : g i = some a)
    (hb : g j = some b) :
    ∃ p q : Nat, p < q ∧ ((List.range n).filterMap g)[p]? = some a ∧
      ((List.range n).filterMap g)[q]? = some b := by
  have hsplit : List.range n = List.range j ++ (List.range (n - j)).map (j + ·) := by
    rw [← List.range_add]
    congr 1
    omega
  rw [hsplit, List.filterMap_append]
  have hal : a ∈ (List.range j).filterMap g :=
    List.mem_filterMap.2 ⟨i, List.mem_range.2 hij, ha⟩
  have hbl : b ∈ ((List.range (n - j)).map (j + ·)).filterMap g :=
    List.mem_filterMap.2 ⟨j, List.mem_map.2 ⟨0, List.mem_range.2 (by omega), rfl⟩, hb⟩
  obtain ⟨p, hp⟩ := List.mem_iff_getElem?.1 hal
  obtain ⟨q', hq⟩ := List.mem_iff_getElem?.1 hbl
  have hlt : p < ((List.range j).filterMap g).length := by
    by_contra hge
    rw [List.getElem?_eq_none (by omega)] at hp
    cases hp
  refine ⟨p, ((List.range j).filterMap g).length + q', by omega, ?_, ?_⟩
  · rw [List.getElem?_append_left hlt]
    exact hp
  · rw [List.getElem?_append_right (Nat.le_add_right _ _)]
    simpa using hq

/-- C1 counterexample: on a filings list with two matching 10-K records the
method returns both references, not only the one from the earlier
position. -/
theorem annual_filing_not_single_cex :
    annual_filing 320193 2024 (.ok twoKFilings) =
      .filings [mkRef 320193 twoKFilings 0, mkRef 320193 twoKFilings 1] ∧
    annual_filing 320193 2024 (.ok twoKFilings) ≠
      .filings [mkRef 320193 twoKFilings 0] := by
  decide

/-- C1 amended: `annual_filing` aggregates every record whose description is
`10-K` and whose filing date starts with the year, in scan order: whenever
positions `i < j` both match, the returned list holds the reference built
from `i` strictly before the reference built from `j`. -/
theorem annual_filing_aggregates (cik : Nat) (year : Int) (f : Filings)
    (i j : Nat) (hij : i < j) (hjn : j < f.accessionNumber.length)
    (hi : annualMatch f year i) (hj : annualMatch f year j) :
    ∃ rs, annual_filing cik year (.ok f) = .filings rs ∧
      ∃ p q : Nat, p < q ∧ rs[p]? = some (mkRef cik f i) ∧
        rs[q]? = some (mkRef cik f j) := by
  obtain ⟨p, q, hpq, hp, hq⟩ := filterMap_range_ordered
    (fun k => if annualMatch f year k then some (mkRef cik f k) else none)
    f.accessionNumber.length i j hij hjn _ _ (if_pos hi) (if_pos hj)
  have hp' : (annualResults cik year f)[p]? = some (mkRef cik f i) := hp
  have hq' : (annualResults cik year f)[q]? = some (mkRef cik f j) := hq
  refine ⟨annualResults cik year f, ?_, p, q, hpq, hp', hq'⟩
  unfold annual_filing
  simp only
  rw [if_neg]
  intro hemp
  rw [List.isEmpty_iff.mp hemp] at hp'
  cases hp'

/-- Witness for C1's amended statement on the two-record fixture. -/
theorem annual_filing_aggregates_witness :
    ∃ rs, annual_filing 320193 2024 (.ok twoKFilings) = .filings rs ∧
      ∃ p q : Nat, p < q ∧ rs[p]? = some (mkRef 320193 twoKFilings 0) ∧
        rs[q]? = some (mkRef 320193 twoKFilings 1) :=
  annual_filing_aggregates 320193 2024 twoKFilings 0 1 (by decide) (by decide)
    (by decide) (by decide)

/-- C6 amended: construction fails (the exception propagates, so no index is
produced) on a transport failure or on a body that does not parse as JSON,
but the HTTP status code is ignored: any response with a JSON body yields an
index built from that body, whatever the status. -/
theorem init_error_behaviour :
    (∀ s₁ s₂ body, secEdgarInit (.ok ⟨s₁, body⟩) =
      secEdgarInit (.ok ⟨s₂, body⟩)) ∧
    secEdgarInit (.error ()) = .error .transport ∧
    (∀ s, secEdgarInit (.ok ⟨s, none⟩) = .error .jsonDecode) ∧
    (∀ s feed, secEdgarInit (.ok ⟨s, some feed⟩) = .ok (buildIndex feed)) := by
  refine ⟨fun s₁ s₂ body => ?_, rfl, fun s => rfl, fun s feed => rfl⟩
  cases body <;> rfl

/-- C2 counterexample: a record whose `form` starts with `10-K` (indeed
equals it) is not matched, because the code tests `primaryDocDescription`
for exact equality and never reads `form`. -/
theorem match_not_on_form_cex :
    pyStartsWith (formOnlyFilings.form.getD 0 "") "10-K" = true ∧
    annual_filing 320193 2024 (.ok formOnlyFilings) =
      .str "No 10-K filing found for the specified year." := by
  decide

/-- C2 amended: record selection tests `primaryDocDescription` for exact
equality with `10-K` (annual) or `10-Q` (quarterly); the `form` field never
influences either result, and when no description equals the tested string
the lookup finds nothing regardless of every other field. -/
theorem match_is_on_description :
    (∀ cik year f fm, annual_filing cik year (.ok { f with form := fm }) =
      annual_filing cik year (.ok f)) ∧
    (∀ cik year quarter f fm,
      quarterly_filing cik year quarter (.ok { f with form := fm }) =
        quarterly_filing cik year quarter (.ok f)) ∧
    (∀ cik year f, (∀ i, f.primaryDocDescription.getD i "" ≠ "10-K") →
      annual_filing cik year (.ok f) =
        .str "No 10-K filing found for the specified year.") ∧
    (∀ cik year quarter months f, quarter_months quarter = some months →
      (∀ i, f.primaryDocDescription.getD i "" ≠ "10-Q") →
      quarterly_filing cik year quarter (.ok f) =
        .ok (.str "No 10-Q filing found for the specified year and quarter.")) := by
  refine ⟨fun cik year f fm => rfl, fun cik year quarter f fm => rfl,
    fun cik year f hdesc => ?_, fun cik year quarter months f hq hdesc => ?_⟩
  · have hres : annualResults cik year f = [] := by
      refine List.filterMap_eq_nil_iff.2 fun k hk => ?_
      rw [if_neg]
      intro hm
      exact hdesc k hm.1
    unfold annual_filing
    simp [hres]
  · have hres : quarterlyResults cik year months f = [] := by
      refine List.filterMap_eq_nil_iff.2 fun k hk => ?_
      rw [if_neg]
      intro hm
      exact hdesc k hm.1
    unfold quarterly_filing
    rw [hq]
    simp [hres]

/-- Witness for C2's amended statement: a feed whose only description is
`10-K/A` (a strict extension of `10-K`) yields the not-found string. -/
theorem match_is_on_description_witness :
    annual_filing 320193 2024
        (.ok ⟨["0001-23-000001"], ["a.htm"], ["10-K/A"], ["2024-01-15"], ["10-K/A"]⟩) =
      .str "No 10-K filing found for the specified year." :=
  match_is_on_description.2.2.1 320193 2024
    ⟨["0001-23-000001"], ["a.htm"], ["10-K/A"], ["2024-01-15"], ["10-K/A"]⟩
    (by intro i; cases i <;> simp)

/-- C3 counterexample: for CIK 320193 the constructed document URL embeds
the zero-padded `0000320193`, and its path does not carry the unpadded
`/data/320193/` segment the claim requires. -/
theorem archive_url_not_unpadded_cex :
    annual_filing 320193 2024 (.ok oneKFilings) =
      .filings [⟨"2024-11-01", "0000320193-24-000123", "aapl-20240928.htm",
        "10-K",
        "https://www.sec.gov/Archives/edgar/data/0000320193/000032019324000123/aapl-20240928.htm"⟩] ∧
    pyStartsWith
        "https://www.sec.gov/Archives/edgar/data/0000320193/000032019324000123/aapl-20240928.htm"
        "https://www.sec.gov/Archives/edgar/data/320193/" = false := by
  decide

/-- C3 amended: every document URL either lookup constructs starts with the
archive path carrying `_format_cik(cik)`, the same zero-padded 10-digit
form used for the submissions URL; no unpadded CIK form exists in the
code. -/
theorem archive_url_padded :
    (∀ (cik : Nat) (year : Int) f rs r,
      annual_filing cik year (.ok f) = .filings rs → r ∈ rs →
      pyStartsWith r.documentUrl
        ("https://www.sec.gov/Archives/edgar/data/" ++ format_cik cik ++ "/") =
        true) ∧
    (∀ (cik : Nat) (year quarter : Int) f rs r,
      quarterly_filing cik year quarter (.ok f) = .ok (.filings rs) → r ∈ rs →
      pyStartsWith r.documentUrl
        ("https://www.sec.gov/Archives/edgar/data/" ++ format_cik cik ++ "/") =
        true) := by
  constructor
  · intro cik year f rs r hres hr
    unfold annual_filing at hres
    simp only at hres
    split at hres
    · cases hres
    · cases hres
      obtain ⟨i, _, hgi⟩ := List.mem_filterMap.1 hr
      split at hgi
      · cases hgi
        have h1 := pyStartsWith_append_left
          ("https://www.sec.gov/Archives/edgar/data/" ++ format_cik cik ++ "/")
          (stripDashes (f.accessionNumber.getD i ""))
        have h2 := pyStartsWith_append_of _ _ "/" h1
        exact pyStartsWith_append_of _ _ (f.primaryDocument.getD i "") h2
      · cases hgi
  · intro cik year quarter f rs r hres hr
    unfold quarterly_filing at hres
    cases hqm : quarter_months quarter with
    | none => rw [hqm] at hres; cases hres
    | some months =>
        rw [hqm] at hres
        simp only at hres
        injection hres with hres
        split at hres
        · cases hres
        · cases hres
          obtain ⟨i, _, hgi⟩ := List.mem_filterMap.1 hr
          split at hgi
          · cases hgi
            have h1 := pyStartsWith_append_left
              ("https://www.sec.gov/Archives/edgar/data/" ++ format_cik cik ++ "/")
              (stripDashes (f.accessionNumber.getD i ""))
            have h2 := pyStartsWith_append_of _ _ "/" h1
            exact pyStartsWith_append_of _ _ (f.primaryDocument.getD i "") h2
          · cases hgi

/-- Witness for C3's amended statement on the one-record fixture. -/
theorem archive_url_padded_witness :
    pyStartsWith
        "https://www.sec.gov/Archives/edgar/data/0000320193/000032019324000123/aapl-20240928.htm"
        ("https://www.sec.gov/Archives/edgar/data/" ++ format_cik 320193 ++ "/") =
      true :=
  archive_url_padded.1 320193 2024 oneKFilings
    [⟨"2024-11-01", "0000320193-24-000123", "aapl-20240928.htm", "10-K",
      "https://www.sec.gov/Archives/edgar/data/0000320193/000032019324000123/aapl-20240928.htm"⟩]
    ⟨"2024-11-01", "0000320193-24-000123", "aapl-20240928.htm", "10-K",
      "https://www.sec.gov/Archives/edgar/data/0000320193/000032019324000123/aapl-20240928.htm"⟩
    (by decide) (by decide)

/-- C5 counterexample: the per-lookup not-found outcome and the transport
failure outcome of `annual_filing` are two different results carried by the
same string shape, so no branch on the value\'s type or constructor can
separate them. -/
theorem failure_outcomes_same_shape_cex :
    (annual_filing 320193 2024 (.error ())).isStr = true ∧
    (annual_filing 320193 2024 (.ok ⟨[], [], [], [], []⟩)).isStr = true ∧
    annual_filing 320193 2024 (.error ()) ≠
      annual_filing 320193 2024 (.ok ⟨[], [], [], [], []⟩) := by
  decide

/-- C5 amended: both failure outcomes are plain strings, distinct from the
success shapes (a filings list or a record tuple), and distinguishable only
by message content: every transport-failure string starts with `Error `
while each not-found string is a fixed message that does not. -/
theorem failure_strings_by_content :
    (∀ (cik : Nat) (year : Int),
      annual_filing cik year (.error ()) = .str (fetchErrorMsg cik)) ∧
    (∀ cik : Nat, pyStartsWith (fetchErrorMsg cik) "Error " = true) ∧
    (∀ (cik : Nat) (year : Int) f s, annual_filing cik year (.ok f) = .str s →
      s = "No 10-K filing found for the specified year." ∧
        pyStartsWith s "Error " = false) ∧
    (∀ (cik : Nat) (year quarter : Int) months,
      quarter_months quarter = some months →
      quarterly_filing cik year quarter (.error ()) =
        .ok (.str (fetchErrorMsg cik))) ∧
    (∀ (cik : Nat) (year quarter : Int) f s,
      quarterly_filing cik year quarter (.ok f) = .ok (.str s) →
      s = "No 10-Q filing found for the specified year and quarter." ∧
        pyStartsWith s "Error " = false) ∧
    (∀ se n s, name_to_cik se n = .str s → s = "Company not found.") ∧
    (∀ se t s, ticker_to_cik se t = .str s → s = "Ticker not found.") := by
  refine ⟨fun cik year => rfl, fun cik => ?_, fun cik year f s h => ?_,
    fun cik year quarter months hq => ?_, fun cik year quarter f s h => ?_,
    fun se n s h => ?_, fun se t s h => ?_⟩
  · unfold fetchErrorMsg
    exact pyStartsWith_append_of _ _ _
      (pyStartsWith_append_of _ _ _ (by decide))
  · unfold annual_filing at h
    simp only at h
    split at h
    · injection h with h
      exact ⟨h.symm, h ▸ by decide⟩
    · cases h
  · unfold quarterly_filing
    rw [hq]
  · unfold quarterly_filing at h
    cases hqm : quarter_months quarter with
    | none => rw [hqm] at h; cases h
    | some months =>
        rw [hqm] at h
        simp only at h
        injection h with h
        split at h
        · injection h with h
          exact ⟨h.symm, h ▸ by decide⟩
        · cases h
  · unfold name_to_cik at h
    split at h
    · injection h with h
      exact h.symm
    · split at h
      · injection h with h
        exact h.symm
      · cases h
  · unfold ticker_to_cik at h
    split at h
    · injection h with h
      exact h.symm
    · split at h
      · injection h with h
        exact h.symm
      · cases h

/-- Witness for C5's amended statement: a quarter-2 call whose fetch fails
returns the `Error ...` string. -/
theorem failure_strings_by_content_witness :
    quarterly_filing 320193 2024 2 (.error ()) =
      .ok (.str (fetchErrorMsg 320193)) :=
  failure_strings_by_content.2.2.2.1 320193 2024 2 [3, 4, 5] (by decide)

/-- C9: on a single same-year 10-Q record, `quarterly_filing` selects the
record exactly when the month parsed from its filing date lies in the
quarter\'s month list from `quarter_months`. -/
theorem quarterly_month_filter (cik : Nat) (year q : Int) (months : List Int)
    (acc doc fm d : String) (hq : quarter_months q = some months)
    (hd : pyStartsWith d (toString year) = true) :
    quarterly_filing cik year q (.ok ⟨[acc], [doc], ["10-Q"], [d], [fm]⟩) =
      .ok (if filingMonth d ∈ months then
        .filings [⟨d, acc, doc, "10-Q", documentUrl cik acc doc⟩]
      else .str "No 10-Q filing found for the specified year and quarter.") := by
  have hres : quarterlyResults cik year months ⟨[acc], [doc], ["10-Q"], [d], [fm]⟩ =
      if filingMonth d ∈ months then
        [⟨d, acc, doc, "10-Q", documentUrl cik acc doc⟩] else [] := by
    by_cases hm : filingMonth d ∈ months
    · rw [if_pos hm]
      unfold quarterlyResults
      have hmatch : quarterlyMatch ⟨[acc], [doc], ["10-Q"], [d], [fm]⟩ year months 0 :=
        ⟨rfl, hd, hm⟩
      simp [List.range, List.filterMap, hmatch, mkRef, documentUrl]
    · rw [if_neg hm]
      unfold quarterlyResults
      have hnomatch : ¬ quarterlyMatch ⟨[acc], [doc], ["10-Q"], [d], [fm]⟩ year months 0 :=
        fun hmt => hm hmt.2.2
      simp [List.range, List.filterMap, hnomatch]
  unfold quarterly_filing
  rw [hq]
  simp only [hres]
  by_cases hm : filingMonth d ∈ months
  · rw [if_pos hm, if_pos hm]
    rfl
  · rw [if_neg hm, if_neg hm]
    rfl

/-- Witness for C9: a quarter-2 query for 2024 matches the `2024-05-03`
record and rejects the `2024-06-10` record. -/
theorem quarterly_month_filter_witness :
    quarterly_filing 320193 2024 2
        (.ok ⟨["0001-23-000003"], ["q.htm"], ["10-Q"], ["2024-05-03"], ["10-Q"]⟩) =
      .ok (.filings [⟨"2024-05-03", "0001-23-000003", "q.htm", "10-Q",
        documentUrl 320193 "0001-23-000003" "q.htm"⟩]) ∧
    quarterly_filing 320193 2024 2
        (.ok ⟨["0001-23-000003"], ["q.htm"], ["10-Q"], ["2024-06-10"], ["10-Q"]⟩) =
      .ok (.str "No 10-Q filing found for the specified year and quarter.") := by
  constructor
  · have h := quarterly_month_filter 320193 2024 2 [3, 4, 5]
      "0001-23-000003" "q.htm" "10-Q" "2024-05-03" rfl (by decide)
    rw [if_pos (by decide)] at h
    exact h
  · have h := quarterly_month_filter 320193 2024 2 [3, 4, 5]
      "0001-23-000003" "q.htm" "10-Q" "2024-06-10" rfl (by decide)
    rw [if_neg (by decide)] at h
    exact h

lemma roundtrips_fold (rest : List FeedEntry) :
    ∀ st : SecEdgar, RoundTrips st → FreshKeys st rest →
      ((rest.filterMap keptNT).map Prod.fst).Nodup →
      ((rest.filterMap keptNT).map Prod.snd).Nodup →
      RoundTrips (rest.foldl addEntry st) := by
  induction rest with
  | nil => exact fun st hrt _ _ _ => hrt
  | cons e rest ih =>
      intro st hrt hfresh hnd1 hnd2
      rw [List.foldl_cons]
      cases hk : keptNT e with
      | none =>
          have hfm : (e :: rest).filterMap keptNT = rest.filterMap keptNT := by
            rw [List.filterMap_cons, hk]
          rw [addEntry_of_keptNT_none st e hk]
          exact ih st hrt (fun k hkm => hfresh k (by rw [hfm]; exact hkm))
            (by rwa [hfm] at hnd1) (by rwa [hfm] at hnd2)
      | some kp =>
          obtain ⟨ln, lt⟩ := kp
          obtain ⟨name, ticker, ht, htk, hne, hlneq, hlteq⟩ :=
            keptNT_some_elim e ln lt hk
          subst hlneq
          subst hlteq
          have hfm : (e :: rest).filterMap keptNT =
              (lower name, lower ticker) :: rest.filterMap keptNT := by
            rw [List.filterMap_cons, hk]
          have hfreshe := hfresh _ (by rw [hfm]; exact List.mem_cons_self _ _)
          rw [hfm, List.map_cons, List.nodup_cons] at hnd1 hnd2
          rw [addEntry_of_keptNT_some st e name ticker ht htk hne]
          refine ih _ ?_ ?_ hnd1.2 hnd2.2
          · intro c r hr
            simp only [update] at hr
            split at hr
            · rename_i hceq
              injection hr with hv
              subst hv
              subst hceq
              refine ⟨rfl, ?_, ?_⟩
              · simp [update]
              · simp [update]
            · rename_i hcne
              obtain ⟨hcik, hn, ht2⟩ := hrt c r hr
              refine ⟨hcik, ?_, ?_⟩
              · have hnn : lower r.name ≠ lower name := by
                  intro he
                  rw [he, hfreshe.1] at hn
                  cases hn
                simp only [update, if_neg hnn]
                exact hn
              · have htt : lower r.ticker ≠ lower ticker := by
                  intro he
                  rw [he, hfreshe.2] at ht2
                  cases ht2
                simp only [update, if_neg htt]
                exact ht2
          · intro k hkm
            have hold := hfresh k (by rw [hfm]; exact List.mem_cons_of_mem _ hkm)
            have hk1 : k.1 ≠ lower name := by
              intro he
              refine hnd1.1 ?_
              rw [← he]
              exact List.mem_map.2 ⟨k, hkm, rfl⟩
            have hk2 : k.2 ≠ lower ticker := by
              intro he
              refine hnd2.1 ?_
              rw [← he]
              exact List.mem_map.2 ⟨k, hkm, rfl⟩
            exact ⟨by simp only [update, if_neg hk1]; exact hold.1,
              by simp only [update, if_neg hk2]; exact hold.2⟩

/-- C8 counterexample: with two kept entries sharing a name, the record for
CIK 1 is in the store but resolving its own name returns the other record:
the round trip fails for an arbitrary feed. -/
theorem roundtrip_fails_cex :
    (buildIndex dupNameFeed).cik_data (some 1) = some ⟨some 1, "A", "X"⟩ ∧
    name_to_cik (buildIndex dupNameFeed) "X" ≠ .record ⟨some 1, "A", "X"⟩ ∧
    name_to_cik (buildIndex dupNameFeed) "X" = .record ⟨some 2, "B", "X"⟩ := by
  decide

/-- C8 amended: when the kept entries\' lowercased names are pairwise
distinct and likewise their lowercased tickers, every record in the store
round-trips: resolving its own name and its own ticker each return exactly
that record. -/
theorem roundtrip_resolution (feed : List FeedEntry)
    (hnames : ((feed.filterMap keptNT).map Prod.fst).Nodup)
    (htickers : ((feed.filterMap keptNT).map Prod.snd).Nodup)
    (c : Option Nat) (r : CompanyRecord)
    (hr : (buildIndex feed).cik_data c = some r) :
    name_to_cik (buildIndex feed) r.name = .record r ∧
    ticker_to_cik (buildIndex feed) r.ticker = .record r := by
  have hrt : RoundTrips (buildIndex feed) :=
    roundtrips_fold feed emptyIndex
      (fun c r hr => by simp [emptyIndex] at hr)
      (fun k _ => ⟨rfl, rfl⟩) hnames htickers
  obtain ⟨hcik, hn, ht⟩ := hrt c r hr
  constructor
  · simp only [name_to_cik, hn]
    simp [hr]
  · simp only [ticker_to_cik, ht]
    simp [hr]

/-- Witness for C8's amended statement on a one-entry feed. -/
theorem roundtrip_resolution_witness :
    name_to_cik (buildIndex [⟨some 1, some "AAPL", some "Apple Inc."⟩])
        "Apple Inc." = .record ⟨some 1, "AAPL", "Apple Inc."⟩ ∧
    ticker_to_cik (buildIndex [⟨some 1, some "AAPL", some "Apple Inc."⟩])
        "AAPL" = .record ⟨some 1, "AAPL", "Apple Inc."⟩ :=
  roundtrip_resolution [⟨some 1, some "AAPL", some "Apple Inc."⟩]
    (by decide) (by decide) (some 1) ⟨some 1, "AAPL", "Apple Inc."⟩ (by decide)

end CIK
